import Mathlib

/-!
Verification of `pkg/dev/portforward/pod_forwarder.go`.

The Go file implements a `podForwarder`: `NewPodForwarder` parses a pod
address, `Run` drives a port-forwarding session and resolves a one-shot
readiness gate (`initChan` guarded by a shared `sync.Once`), and
`DialContext` blocks on the gate and redirects connections to the local
forwarded address.  This file gives a shallow embedding of that code:
string helpers (`strings.SplitN`, `net.SplitHostPort`) are translated as
executable functions on `List Char`, the concurrent body of `Run` (main
goroutine plus the readiness-watch goroutine) is a small-step transition
system, and `DialContext` is a pure function of a state snapshot.
-/

set_option autoImplicit false

deriving instance DecidableEq for Except

namespace PodForward

/-- Errors produced by the Go code: `net.AddrError` values (as produced by
`net.SplitHostPort`), plain `errors.New`/`fmt.Errorf` messages, and opaque
errors coming from injected collaborators (port finder, session factory,
dialer, contexts). -/
inductive GoErr where
  | addrError (addr why : String)
  | simple (msg : String)
  | external (tag : String)
deriving DecidableEq, Repr

/-! ### strings.SplitN -/

/-- Split a character list at the first occurrence of `sep`: returns the
part before and the part after, or `none` when `sep` does not occur.
This is the single splitting step of Go's `strings.SplitN`. -/
def breakAt (sep : Char) : List Char → Option (List Char × List Char)
  | [] => none
  | c :: cs =>
    if c = sep then some ([], cs)
    else
      match breakAt sep cs with
      | none => none
      | some (pre, post) => some (c :: pre, post)

/-- Go's `strings.SplitN(s, sep, n)` for a single-character separator and
`n ≥ 0`: at most `n` parts, the last part holding the unsplit remainder. -/
def splitNCore (sep : Char) : Nat → List Char → List (List Char)
  | 0, _ => []
  | 1, cs => [cs]
  | n + 2, cs =>
    match breakAt sep cs with
    | none => [cs]
    | some (pre, post) => pre :: splitNCore sep (n + 1) post

/-- Go's `strings.Split(s, sep)` (no limit) for a single-character
separator, written with structural recursion. -/
def splitAllCore (sep : Char) : List Char → List (List Char)
  | [] => [[]]
  | c :: cs =>
    if c = sep then [] :: splitAllCore sep cs
    else
      match splitAllCore sep cs with
      | [] => [[c]]
      | p :: ps => (c :: p) :: ps

/-! ### net.SplitHostPort -/

/-- Index of the last occurrence of a character, as in Go's
`last(hostPort, ':')`. -/
def lastIndexOf (sep : Char) : List Char → Option Nat
  | [] => none
  | c :: cs =>
    match lastIndexOf sep cs with
    | some i => some (i + 1)
    | none => if c = sep then some 0 else none

/-- Go's `net.SplitHostPort`, translated clause by clause: the port starts
after the last colon; a leading `[` starts a bracketed (IPv6) host whose
closing `]` must sit just before that colon; stray colons or brackets are
rejected with the same `AddrError` messages as the Go standard library. -/
def splitHostPortCore (cs : List Char) : Except GoErr (List Char × List Char) :=
  match lastIndexOf ':' cs with
  | none => .error (.addrError cs.asString "missing port in address")
  | some i =>
    if cs.headD ' ' = '[' then
      match List.findIdx? (fun c => c = ']') cs with
      | none => .error (.addrError cs.asString "missing ']' in address")
      | some e =>
        if e + 1 = cs.length then
          .error (.addrError cs.asString "missing port in address")
        else if e + 1 = i then
          if ((cs.drop 1).contains '[') then
            .error (.addrError cs.asString "missing brackets in address")
          else if ((cs.drop (e + 1)).contains ']') then
            .error (.addrError cs.asString "unexpected ']' in address")
          else
            .ok ((cs.drop 1).take (e - 1), cs.drop (i + 1))
        else if cs.getD (e + 1) ' ' = ':' then
          .error (.addrError cs.asString "too many colons in address")
        else
          .error (.addrError cs.asString "missing port in address")
    else
      if ((cs.take i).contains ':') then
        .error (.addrError cs.asString "too many colons in address")
      else if cs.contains '[' then
        .error (.addrError cs.asString "missing brackets in address")
      else if cs.contains ']' then
        .error (.addrError cs.asString "unexpected ']' in address")
      else
        .ok (cs.take i, cs.drop (i + 1))

/-- `net.SplitHostPort` on strings. -/
def splitHostPort (s : String) : Except GoErr (String × String) :=
  match splitHostPortCore s.toList with
  | .error e => .error e
  | .ok (h, p) => .ok (h.asString, p.asString)

/-! ### parsePodAddr and NewPodForwarder -/

/-- `parsePodAddr` from the Go source, on character lists:
`parts := strings.SplitN(addr, ".", 3)`; error when `len(parts) <= 2`;
otherwise the pod name is `parts[0]` and the namespace `parts[1]`. -/
def parsePodAddrCore (cs : List Char) : Except GoErr (List Char × List Char) :=
  let parts := splitNCore '.' 3 cs
  if parts.length ≤ 2 then
    .error (.simple ("unsupported pod address format: " ++ cs.asString))
  else
    .ok (parts.getD 0 [], parts.getD 1 [])

/-- `parsePodAddr` on strings, returning `(name, namespace)`. -/
def parsePodAddr (addr : String) : Except GoErr (String × String) :=
  match parsePodAddrCore addr.toList with
  | .error e => .error e
  | .ok (n, ns) => .ok (n.asString, ns.asString)

/-- The immutable part of a `podForwarder`, filled in by `NewPodForwarder`:
the requested network/address and the parsed pod name and namespace. -/
structure FwdConfig where
  network : String
  addr : String
  podName : String
  namespace' : String
deriving DecidableEq, Repr

/-- `NewPodForwarder(network, addr)`: parse the pod address and return the
initialized forwarder data, or fail with the parse error. -/
def NewPodForwarder (network addr : String) : Except GoErr FwdConfig :=
  match parsePodAddr addr with
  | .error e => .error e
  | .ok (podName, ns) =>
    .ok { network := network, addr := addr, podName := podName, namespace' := ns }

/-! ### defaultEphemeralPortFinder

The Go function opens a TCP listener, reads back the bound address,
closes the listener, and returns the port component of that address.
The two operating-system effects (`net.Listen` and `Listener.Close`) are
supplied by a `NetWorld` oracle; the address splitting is the concrete
`splitHostPort` above. -/

/-- Oracle for the two socket effects used by `defaultEphemeralPortFinder`:
`listen network laddr` yields the bound address (`listener.Addr().String()`)
or a listen error, and `close boundAddr` yields the close error, if any. -/
structure NetWorld where
  listen : String → String → Except GoErr String
  close : String → Option GoErr

/-- The listen address hard-coded in `defaultEphemeralPortFinder`:
the loopback interface, port 0. -/
def ephemeralListenAddr : String := "127.0.0.1:0"

/-- `defaultEphemeralPortFinder`: listen on `"tcp", "127.0.0.1:0"`, read the
bound address, close the listener, and return the port component from
`net.SplitHostPort`; any listen, close, or split failure is returned as an
error. -/
def defaultEphemeralPortFinder (w : NetWorld) : Except GoErr String :=
  match w.listen "tcp" ephemeralListenAddr with
  | .error e => .error e
  | .ok addr =>
    match w.close addr with
    | some e => .error e
    | none =>
      match splitHostPort addr with
      | .error e => .error e
      | .ok (_, localPort) => .ok localPort

/-- Modelled from the spec: a "wildcard" listening host, as in §2's
"wildcard listening socket" — the host part is unspecified or the
all-zeros address, rather than a concrete interface address. -/
def wildcardHost (h : String) : Bool :=
  h = "" || h = "0.0.0.0" || h = "::"

/-! ### The forwarder state machine

`Run` and the readiness-watch goroutine it spawns share four pieces of
state: the `initChan` channel (here: whether it has been closed), the
`initCloser` `sync.Once` guard (here: whether its body has run), `viaErr`
and `viaAddr`.  A `FwdState` carries this shared state, the immutable
configuration fields, the program counter of `Run`'s main goroutine
(`RunPh`), the program counter of the watch goroutine (`WatchPh`), whether
the derived `runCtx` has been cancelled, and whether a double-close panic
has occurred. -/

/-- Program counter of `Run`'s main goroutine.  The phases follow the
source order: split the pod address, find an ephemeral port, build the
session via the factory, block in `ForwardPorts`, assign `viaErr`, then
the deferred `runCtxCancel` and `initCloser.Do(close(initChan))`, then
return. -/
inductive RunPh where
  | start
  | findPort (port : String)
  | mkSession (localPort port : String)
  | forwarding (localPort : String)
  | setErr (res : Option GoErr)
  | exiting (ret : Option GoErr)
  | closeInit (ret : Option GoErr)
  | done (ret : Option GoErr)
deriving DecidableEq, Repr

/-- Program counter of the readiness-watch goroutine spawned by `Run`:
not yet spawned; selecting between `runCtx.Done()` and `readyChan`;
about to assign `viaAddr`; about to run its deferred
`initCloser.Do(close(initChan))`; or finished (via cancellation or via
the readiness branch). -/
inductive WatchPh where
  | none_
  | waiting (localPort : String)
  | ready1 (localPort : String)
  | ready2 (localPort : String)
  | exitedCancel
  | exitedReady (localPort : String)
deriving DecidableEq, Repr

/-- A `podForwarder`'s mutable and immutable state plus the two program
counters.  `panicked` records whether `close` was ever called on an
already-closed `initChan` (Go would panic). -/
structure FwdState where
  network : String
  addr : String
  podName : String
  namespace' : String
  initChanClosed : Bool
  onceDone : Bool
  panicked : Bool
  viaErr : Option GoErr
  viaAddr : String
  runCtxCancelled : Bool
  runPh : RunPh
  watchPh : WatchPh
deriving DecidableEq, Repr

/-- Results of the injected collaborators of one `Run` invocation:
the ephemeral port finder, the `PortForwarderFactory`, the
`ForwardPorts()` return value, whether the session ever signals
`readyChan`, and whether the context passed to `Run` is cancelled. -/
structure RunEnv where
  portFind : Except GoErr String
  mkSession : Except GoErr Unit
  forwardPorts : Option GoErr
  sessionReady : Bool
  outerCancelled : Bool

/-- `initCloser.Do(func() { close(f.initChan) })`: a no-op when the once
guard has fired; otherwise closing an already-closed channel panics, and
closing an open channel closes it and marks the guard done (the body runs
to completion inside the once's critical section). -/
def onceClose (s : FwdState) : FwdState :=
  if s.onceDone then s
  else if s.initChanClosed then { s with panicked := true }
  else { s with initChanClosed := true, onceDone := true }

/-- The state of a freshly constructed `podForwarder`: channel open, no
error, empty `viaAddr`, `Run` not yet past its first statement, no watch
goroutine. -/
def initState (cfg : FwdConfig) : FwdState :=
  { network := cfg.network
    addr := cfg.addr
    podName := cfg.podName
    namespace' := cfg.namespace'
    initChanClosed := false
    onceDone := false
    panicked := false
    viaErr := none
    viaAddr := ""
    runCtxCancelled := false
    runPh := .start
    watchPh := .none_ }

/-- Outcome of one `DialContext` call, relative to a state snapshot: the
call blocks in the initial `select`; or returns an error; or goes on to
invoke `f.dialerFunc(ctx, network, addr)` with the given arguments. -/
inductive DialResult where
  | blocks
  | err (e : GoErr)
  | dialed (network addr : String)
deriving DecidableEq, Repr

/-- `podForwarder.DialContext`, translated from the source: wait until
`initChan` is closed or the context is done; if the context has an error,
return it; if `viaErr` is set, return it; otherwise call the injected
dialer on `(f.network, f.viaAddr)`.  The source method reads the
forwarder's fields and writes none of them, so the returned state is the
input state. -/
def DialContext (s : FwdState) (ctxErr : Option GoErr) : FwdState × DialResult :=
  (s,
    if s.initChanClosed = false ∧ ctxErr = none then .blocks
    else
      match ctxErr with
      | some e => .err e
      | none =>
        match s.viaErr with
        | some e => .err e
        | none => .dialed s.network s.viaAddr)

/-- The result component of `DialContext`. -/
def dialContext (s : FwdState) (ctxErr : Option GoErr) : DialResult :=
  (DialContext s ctxErr).2

/-- Apply an injected dialer function to a `DialContext` outcome:
`none` when the call is still blocked, otherwise the error or the
dialer's own result, as returned to the caller. -/
def runDial (d : String → String → Except GoErr Unit) :
    DialResult → Option (Except GoErr Unit)
  | .blocks => none
  | .err e => some (.error e)
  | .dialed n a => some (d n a)

/-- Interleaved small-step semantics of `Run` (constructors `splitOk`
through `deferClose`, following the statements of the source) and of the
readiness-watch goroutine (`watchReady` through `watchClose`).  The
deferred statements of `Run` execute in LIFO order: `runCtxCancel`, then
`initCloser.Do(close(initChan))`.  The watch goroutine is spawned when the
session factory succeeds; its `select` may take the ready branch when the
session signals readiness, or the done branch once the outer context is
cancelled or `Run`'s deferred `runCtxCancel` has executed. -/
inductive Step (env : RunEnv) : FwdState → FwdState → Prop where
  | splitOk {s : FwdState} {h p : String}
      (hph : s.runPh = .start)
      (hsp : splitHostPort s.addr = .ok (h, p)) :
      Step env s { s with runPh := .findPort p }
  | splitErr {s : FwdState} {e : GoErr}
      (hph : s.runPh = .start)
      (hsp : splitHostPort s.addr = .error e) :
      Step env s { s with runPh := .exiting (some e) }
  | portOk {s : FwdState} {lp p : String}
      (hph : s.runPh = .findPort p)
      (hpf : env.portFind = .ok lp) :
      Step env s { s with runPh := .mkSession lp p }
  | portErr {s : FwdState} {e : GoErr} {p : String}
      (hph : s.runPh = .findPort p)
      (hpf : env.portFind = .error e) :
      Step env s { s with runPh := .exiting (some e) }
  | sessionOk {s : FwdState} {lp p : String}
      (hph : s.runPh = .mkSession lp p)
      (hmk : env.mkSession = .ok ()) :
      Step env s { s with runPh := .forwarding lp, watchPh := .waiting lp }
  | sessionErr {s : FwdState} {lp p : String} {e : GoErr}
      (hph : s.runPh = .mkSession lp p)
      (hmk : env.mkSession = .error e) :
      Step env s { s with runPh := .exiting (some e) }
  | forwardReturn {s : FwdState} {lp : String}
      (hph : s.runPh = .forwarding lp) :
      Step env s { s with runPh := .setErr env.forwardPorts }
  | setViaErr {s : FwdState} {r : Option GoErr}
      (hph : s.runPh = .setErr r) :
      Step env s { s with viaErr := some (.simple "not currently forwarding"),
                          runPh := .exiting r }
  | cancelRunCtx {s : FwdState} {r : Option GoErr}
      (hph : s.runPh = .exiting r) :
      Step env s { s with runCtxCancelled := true, runPh := .closeInit r }
  | deferClose {s : FwdState} {r : Option GoErr}
      (hph : s.runPh = .closeInit r) :
      Step env s { onceClose s with runPh := .done r }
  | watchReady {s : FwdState} {lp : String}
      (hph : s.watchPh = .waiting lp)
      (hready : env.sessionReady = true) :
      Step env s { s with watchPh := .ready1 lp }
  | watchCancel {s : FwdState} {lp : String}
      (hph : s.watchPh = .waiting lp)
      (hcancel : env.outerCancelled = true ∨ s.runCtxCancelled = true) :
      Step env s { s with watchPh := .exitedCancel }
  | watchSetAddr {s : FwdState} {lp : String}
      (hph : s.watchPh = .ready1 lp) :
      Step env s { s with viaAddr := "127.0.0.1:" ++ lp, watchPh := .ready2 lp }
  | watchClose {s : FwdState} {lp : String}
      (hph : s.watchPh = .ready2 lp) :
      Step env s { onceClose s with watchPh := .exitedReady lp }

/-- The fixed sentinel assigned to `f.viaErr` when `ForwardPorts` returns. -/
def notForwardingErr : GoErr := .simple "not currently forwarding"

/-- States reachable from the freshly-constructed forwarder by any
interleaving of `Run` and the watch goroutine. -/
def Reachable (cfg : FwdConfig) (env : RunEnv) (s : FwdState) : Prop :=
  Relation.ReflTransGen (Step env) (initState cfg) s

/-- The return value of `Run` as a function of the environment: the first
failing stage's error, or the `ForwardPorts` result. -/
def runResult (addr : String) (env : RunEnv) : Option GoErr :=
  match splitHostPort addr with
  | .error e => some e
  | .ok _ =>
    match env.portFind with
    | .error e => some e
    | .ok _ =>
      match env.mkSession with
      | .error e => some e
      | .ok _ => env.forwardPorts

/-! ### Reachability invariant -/

/-- Phases of `Run` after the `ForwardPorts` call site (the function body
proper has ended and only deferred statements or the final return remain). -/
def RunPast : RunPh → Prop
  | .exiting _ => True
  | .closeInit _ => True
  | .done _ => True
  | _ => False

/-- Phases of `Run` before the watch goroutine can have been spawned. -/
def PreSpawn : RunPh → Prop
  | .start => True
  | .findPort _ => True
  | .mkSession _ _ => True
  | _ => False

/-- Phases of `Run` other than `forwarding`/`setErr`. -/
def NotForwardingPhase : RunPh → Prop
  | .forwarding _ => False
  | .setErr _ => False
  | _ => True

/-- What each program point of `Run`'s main goroutine implies about the
environment and the gate: each phase records the successes that led to
it, terminal phases carry the eventual return value, and a finished `Run`
has a closed gate. -/
def RunPhInvAt (addr : String) (env : RunEnv) (s : FwdState) : RunPh → Prop
  | .start => True
  | .findPort p => ∃ h, splitHostPort addr = .ok (h, p)
  | .mkSession lp p => (∃ h, splitHostPort addr = .ok (h, p)) ∧ env.portFind = .ok lp
  | .forwarding lp =>
      (∃ h p, splitHostPort addr = .ok (h, p)) ∧ env.portFind = .ok lp
        ∧ env.mkSession = .ok ()
  | .setErr r =>
      (∃ h p, splitHostPort addr = .ok (h, p)) ∧ (∃ lp, env.portFind = .ok lp)
        ∧ env.mkSession = .ok () ∧ r = env.forwardPorts
  | .exiting r => r = runResult addr env
  | .closeInit r => r = runResult addr env
  | .done r => r = runResult addr env ∧ s.initChanClosed = true

/-- What each program point of the watch goroutine implies: it exists only
when the session factory succeeded, it carries the allocated local port,
`viaAddr` is written exactly by its `ready` branch, and its deferred close
has resolved the gate once it exits through the ready branch. -/
def WatchInvAt (env : RunEnv) (s : FwdState) : WatchPh → Prop
  | .none_ => s.viaAddr = "" ∧ NotForwardingPhase s.runPh
  | .waiting lp => env.portFind = .ok lp ∧ env.mkSession = .ok () ∧ s.viaAddr = ""
  | .ready1 lp =>
      env.portFind = .ok lp ∧ env.mkSession = .ok () ∧ env.sessionReady = true
        ∧ s.viaAddr = ""
  | .ready2 lp =>
      env.portFind = .ok lp ∧ env.mkSession = .ok () ∧ env.sessionReady = true
        ∧ s.viaAddr = "127.0.0.1:" ++ lp
  | .exitedCancel =>
      env.mkSession = .ok () ∧ (∃ lp, env.portFind = .ok lp) ∧ s.viaAddr = ""
  | .exitedReady lp =>
      env.portFind = .ok lp ∧ env.mkSession = .ok () ∧ env.sessionReady = true
        ∧ s.viaAddr = "127.0.0.1:" ++ lp ∧ s.initChanClosed = true

/-- Invariant of every reachable forwarder state: the configuration fields
are unchanged, no double-close panic has happened, the gate is closed
exactly when the once guard has fired, the two program counters satisfy
their phase conditions, `viaErr` is only ever the fixed sentinel written
after `ForwardPorts` returned, and it is surely written once `Run` is past
that point on the successful-session path. -/
structure Inv (cfg : FwdConfig) (env : RunEnv) (s : FwdState) : Prop where
  net_eq : s.network = cfg.network
  addr_eq : s.addr = cfg.addr
  pod_eq : s.podName = cfg.podName
  ns_eq : s.namespace' = cfg.namespace'
  no_panic : s.panicked = false
  gate_iff : s.initChanClosed = s.onceDone
  run_inv : RunPhInvAt cfg.addr env s s.runPh
  watch_inv : WatchInvAt env s s.watchPh
  run_watch : PreSpawn s.runPh → s.watchPh = .none_
  via_err_inv : ∀ e, s.viaErr = some e →
    e = notForwardingErr ∧ env.mkSession = .ok ()
      ∧ (∃ lp, env.portFind = .ok lp) ∧ RunPast s.runPh
  via_err_set : RunPast s.runPh →
    (∃ h p, splitHostPort cfg.addr = .ok (h, p)) →
    (∃ lp, env.portFind = .ok lp) → env.mkSession = .ok () →
    s.viaErr = some notForwardingErr

/-! ### Concrete scenario data

One well-formed forwarder configuration (address carrying a remote port),
one without a remote port, and the environments of the concrete scenarios:
session-creation failure, port-allocation failure, normal termination of
`ForwardPorts`, and a session that signals readiness. -/

/-- Session-creation error injected by a fake factory. -/
def errSess : GoErr := .external "session creation failed"

/-- Port-allocation error injected by a fake port finder. -/
def errPort : GoErr := .external "no ports available"

/-- Result of `ForwardPorts` when the tunnel session ends. -/
def errFwd : GoErr := .external "forwarding ended"

/-- The `SplitHostPort` error for a pod address without a port. -/
def errNoPort : GoErr :=
  .addrError "podA.ns1.pod.cluster.local" "missing port in address"

/-- Forwarder configuration for `podA.ns1.pod.cluster.local:9200`. -/
def cfgA : FwdConfig :=
  { network := "tcp", addr := "podA.ns1.pod.cluster.local:9200",
    podName := "podA", namespace' := "ns1" }

/-- Forwarder configuration for the port-less `podA.ns1.pod.cluster.local`. -/
def cfgNoPort : FwdConfig :=
  { network := "tcp", addr := "podA.ns1.pod.cluster.local",
    podName := "podA", namespace' := "ns1" }

/-- Environment where the session factory fails. -/
def envSessErr : RunEnv :=
  { portFind := .ok "9000", mkSession := .error errSess,
    forwardPorts := none, sessionReady := false, outerCancelled := false }

/-- Environment where the ephemeral port finder fails. -/
def envPortErr : RunEnv :=
  { portFind := .error errPort, mkSession := .ok (),
    forwardPorts := none, sessionReady := false, outerCancelled := false }

/-- Environment where the session is created and `ForwardPorts` later
returns an error, without the session ever signalling readiness. -/
def envTerm : RunEnv :=
  { portFind := .ok "9000", mkSession := .ok (),
    forwardPorts := some errFwd, sessionReady := false,
    outerCancelled := false }

/-- Environment where the session is created and signals readiness. -/
def envReady : RunEnv :=
  { portFind := .ok "9000", mkSession := .ok (), forwardPorts := none,
    sessionReady := true, outerCancelled := false }

/-- Initial state for `cfgA`. -/
def sInit : FwdState := initState cfgA

/-- After `SplitHostPort` succeeded on `cfgA.addr`. -/
def sFind : FwdState := { sInit with runPh := .findPort "9200" }

/-- After the port finder returned `9000`. -/
def sMk : FwdState := { sFind with runPh := .mkSession "9000" "9200" }

/-- The factory failed: `Run` returns through its deferred statements. -/
def sSessExit : FwdState := { sMk with runPh := .exiting (some errSess) }

/-- After the deferred `runCtxCancel` on the factory-failure path. -/
def sSessClose : FwdState :=
  { sSessExit with runCtxCancelled := true, runPh := .closeInit (some errSess) }

/-- `Run` finished on the factory-failure path. -/
def sSessDone : FwdState :=
  { onceClose sSessClose with runPh := .done (some errSess) }

/-- The port finder failed: `Run` returns through its deferred statements. -/
def sPortExit : FwdState := { sFind with runPh := .exiting (some errPort) }

/-- After the deferred `runCtxCancel` on the port-failure path. -/
def sPortClose : FwdState :=
  { sPortExit with runCtxCancelled := true, runPh := .closeInit (some errPort) }

/-- `Run` finished on the port-failure path. -/
def sPortDone : FwdState :=
  { onceClose sPortClose with runPh := .done (some errPort) }

/-- Session created: `Run` blocks in `ForwardPorts`, watcher waiting. -/
def sFwd : FwdState :=
  { sMk with runPh := .forwarding "9000", watchPh := .waiting "9000" }

/-- `ForwardPorts` returned `errFwd`. -/
def sSetErr : FwdState := { sFwd with runPh := .setErr (some errFwd) }

/-- `viaErr` assigned the sentinel; `Run` begins its deferred statements. -/
def sTermExit : FwdState :=
  { sSetErr with viaErr := some notForwardingErr,
                 runPh := .exiting (some errFwd) }

/-- After the deferred `runCtxCancel` on the termination path. -/
def sTermClose : FwdState :=
  { sTermExit with runCtxCancelled := true, runPh := .closeInit (some errFwd) }

/-- `Run` finished on the termination path. -/
def sTermDone : FwdState :=
  { onceClose sTermClose with runPh := .done (some errFwd) }

/-- The watcher received the readiness signal. -/
def sReady1 : FwdState := { sFwd with watchPh := .ready1 "9000" }

/-- The watcher assigned `viaAddr`. -/
def sReady2 : FwdState :=
  { sReady1 with viaAddr := "127.0.0.1:" ++ "9000", watchPh := .ready2 "9000" }

/-- The watcher ran its deferred close and exited through readiness. -/
def sReady : FwdState :=
  { onceClose sReady2 with watchPh := .exitedReady "9000" }

/-- Initial state for the port-less address. -/
def bInit : FwdState := initState cfgNoPort

/-- `SplitHostPort` failed on the port-less address. -/
def bExit : FwdState := { bInit with runPh := .exiting (some errNoPort) }

/-- After the deferred `runCtxCancel` on the port-less-address path. -/
def bClose : FwdState :=
  { bExit with runCtxCancelled := true, runPh := .closeInit (some errNoPort) }

/-- `Run` finished on the port-less-address path. -/
def bDone : FwdState := { onceClose bClose with runPh := .done (some errNoPort) }

/-- A socket oracle whose listen always binds `127.0.0.1:43210` and whose
close always succeeds. -/
def wProbe : NetWorld :=
  { listen := fun _ _ => .ok "127.0.0.1:43210", close := fun _ => none }

example : parsePodAddr "a.b.c.d.e" = .ok ("a", "b") := by decide
example : parsePodAddr "a.b" =
    .error (.simple "unsupported pod address format: a.b") := by decide
example : splitHostPort "127.0.0.1:0" = .ok ("127.0.0.1", "0") := by decide
example : splitHostPort "podA.ns1.pod.cluster.local" =
    .error (.addrError "podA.ns1.pod.cluster.local" "missing port in address") := by
  decide
example : splitHostPort "podA.ns1.pod.cluster.local:9200" =
    .ok ("podA.ns1.pod.cluster.local", "9200") := by decide
example : splitHostPort "[::1]:80" = .ok ("::1", "80") := by decide


/-- The initial state satisfies the invariant. -/
theorem inv_init (cfg : FwdConfig) (env : RunEnv) : Inv cfg env (initState cfg) := by
  constructor <;>
    simp [initState, RunPhInvAt, WatchInvAt, NotForwardingPhase, PreSpawn, RunPast]

/-- Effect of the once-guarded close under the invariant's gate relation:
the gate ends up closed, no panic occurs, and all other fields are kept. -/
theorem onceClose_fields {s : FwdState}
    (hg : s.initChanClosed = s.onceDone) (hp : s.panicked = false) :
    (onceClose s).initChanClosed = true ∧ (onceClose s).onceDone = true
      ∧ (onceClose s).panicked = false
      ∧ (onceClose s).network = s.network ∧ (onceClose s).addr = s.addr
      ∧ (onceClose s).podName = s.podName ∧ (onceClose s).namespace' = s.namespace'
      ∧ (onceClose s).viaErr = s.viaErr ∧ (onceClose s).viaAddr = s.viaAddr
      ∧ (onceClose s).runCtxCancelled = s.runCtxCancelled
      ∧ (onceClose s).runPh = s.runPh ∧ (onceClose s).watchPh = s.watchPh := by
  unfold onceClose
  cases hd : s.onceDone with
  | true =>
    have hc : s.initChanClosed = true := hg.trans hd
    simp [hd, hc, hp]
  | false =>
    have hc : s.initChanClosed = false := hg.trans hd
    simp [hd, hc, hp]

/-- `RunPhInvAt` only reads `initChanClosed` from the state, positively. -/
theorem RunPhInvAt_mono {addr : String} {env : RunEnv} {s s' : FwdState} {ph : RunPh}
    (hic : s.initChanClosed = true → s'.initChanClosed = true)
    (h : RunPhInvAt addr env s ph) : RunPhInvAt addr env s' ph := by
  cases ph
  case done r => exact ⟨h.1, hic h.2⟩
  all_goals exact h

/-- `WatchInvAt` only reads `viaAddr`, `initChanClosed` (positively) and
`runPh` (through `NotForwardingPhase`) from the state. -/
theorem WatchInvAt_mono {env : RunEnv} {s s' : FwdState} {w : WatchPh}
    (hva : s'.viaAddr = s.viaAddr)
    (hic : s.initChanClosed = true → s'.initChanClosed = true)
    (hnf : NotForwardingPhase s.runPh → NotForwardingPhase s'.runPh)
    (h : WatchInvAt env s w) : WatchInvAt env s' w := by
  cases w
  case none_ => exact ⟨hva.trans h.1, hnf h.2⟩
  case waiting lp => exact ⟨h.1, h.2.1, hva.trans h.2.2⟩
  case ready1 lp => exact ⟨h.1, h.2.1, h.2.2.1, hva.trans h.2.2.2⟩
  case ready2 lp => exact ⟨h.1, h.2.1, h.2.2.1, hva.trans h.2.2.2⟩
  case exitedCancel => exact ⟨h.1, h.2.1, hva.trans h.2.2⟩
  case exitedReady lp =>
    exact ⟨h.1, h.2.1, h.2.2.1, hva.trans h.2.2.2.1, hic h.2.2.2.2⟩

/-- Every step preserves the invariant. -/
theorem inv_step {cfg : FwdConfig} {env : RunEnv} {s s' : FwdState}
    (hI : Inv cfg env s) (hstep : Step env s s') : Inv cfg env s' := by
  obtain ⟨hnet, haddr, hpod, hns, hpanic, hgate, hrun, hwatch, hrw, hverr, hvset⟩ := hI
  cases hstep with
  | splitOk hph hsp =>
    rename_i h p
    refine ⟨hnet, haddr, hpod, hns, hpanic, hgate, ⟨h, haddr ▸ hsp⟩, ?_, ?_, ?_, ?_⟩
    · exact @WatchInvAt_mono env s _ _ rfl (fun h => h) (fun _ => trivial) hwatch
    · intro _; exact hrw (by rw [hph]; trivial)
    · intro e he
      have h4 := (hverr e he).2.2.2
      rw [hph] at h4; simp [RunPast] at h4
    · intro hrp; simp [RunPast] at hrp
  | splitErr hph hsp =>
    rename_i e
    have hsp' : splitHostPort cfg.addr = .error e := haddr ▸ hsp
    refine ⟨hnet, haddr, hpod, hns, hpanic, hgate, ?_, ?_, ?_, ?_, ?_⟩
    · show some e = runResult cfg.addr env
      simp [runResult, hsp']
    · exact @WatchInvAt_mono env s _ _ rfl (fun h => h) (fun _ => trivial) hwatch
    · intro hps; simp [PreSpawn] at hps
    · intro e' he
      have h4 := (hverr e' he).2.2.2
      rw [hph] at h4; simp [RunPast] at h4
    · rintro _ ⟨h', p', hok⟩ _ _
      rw [hsp'] at hok; simp at hok
  | portOk hph hpf =>
    rename_i lp p
    rw [hph] at hrun
    refine ⟨hnet, haddr, hpod, hns, hpanic, hgate, ⟨hrun, hpf⟩, ?_, ?_, ?_, ?_⟩
    · exact @WatchInvAt_mono env s _ _ rfl (fun h => h) (fun _ => trivial) hwatch
    · intro _; exact hrw (by rw [hph]; trivial)
    · intro e he
      have h4 := (hverr e he).2.2.2
      rw [hph] at h4; simp [RunPast] at h4
    · intro hrp; simp [RunPast] at hrp
  | portErr hph hpf =>
    rename_i e p
    rw [hph] at hrun
    obtain ⟨h0, hsp0⟩ := hrun
    refine ⟨hnet, haddr, hpod, hns, hpanic, hgate, ?_, ?_, ?_, ?_, ?_⟩
    · show some e = runResult cfg.addr env
      simp [runResult, hsp0, hpf]
    · exact @WatchInvAt_mono env s _ _ rfl (fun h => h) (fun _ => trivial) hwatch
    · intro hps; simp [PreSpawn] at hps
    · intro e' he
      have h4 := (hverr e' he).2.2.2
      rw [hph] at h4; simp [RunPast] at h4
    · rintro _ _ ⟨lp', hok⟩ _
      rw [hpf] at hok; simp at hok
  | sessionOk hph hmk =>
    rename_i lp p
    rw [hph] at hrun
    obtain ⟨⟨h0, hsp0⟩, hpf0⟩ := hrun
    have hwn : s.watchPh = .none_ := hrw (by rw [hph]; trivial)
    rw [hwn] at hwatch
    refine ⟨hnet, haddr, hpod, hns, hpanic, hgate, ⟨⟨h0, p, hsp0⟩, hpf0, hmk⟩,
      ⟨hpf0, hmk, hwatch.1⟩, ?_, ?_, ?_⟩
    · intro hps; simp [PreSpawn] at hps
    · intro e he
      have h4 := (hverr e he).2.2.2
      rw [hph] at h4; simp [RunPast] at h4
    · intro hrp; simp [RunPast] at hrp
  | sessionErr hph hmk =>
    rename_i lp p e
    rw [hph] at hrun
    obtain ⟨⟨h0, hsp0⟩, hpf0⟩ := hrun
    refine ⟨hnet, haddr, hpod, hns, hpanic, hgate, ?_, ?_, ?_, ?_, ?_⟩
    · show some e = runResult cfg.addr env
      simp [runResult, hsp0, hpf0, hmk]
    · exact @WatchInvAt_mono env s _ _ rfl (fun h => h) (fun _ => trivial) hwatch
    · intro hps; simp [PreSpawn] at hps
    · intro e' he
      have h4 := (hverr e' he).2.2.2
      rw [hph] at h4; simp [RunPast] at h4
    · rintro _ _ _ hok
      rw [hmk] at hok; simp at hok
  | forwardReturn hph =>
    rename_i lp
    rw [hph] at hrun
    obtain ⟨⟨h0, p0, hsp0⟩, hpf0, hmk0⟩ := hrun
    refine ⟨hnet, haddr, hpod, hns, hpanic, hgate,
      ⟨⟨h0, p0, hsp0⟩, ⟨lp, hpf0⟩, hmk0, rfl⟩, ?_, ?_, ?_, ?_⟩
    · refine @WatchInvAt_mono env s _ _ rfl (fun h => h) ?_ hwatch
      intro h; rw [hph] at h; simp [NotForwardingPhase] at h
    · intro hps; simp [PreSpawn] at hps
    · intro e he
      have h4 := (hverr e he).2.2.2
      rw [hph] at h4; simp [RunPast] at h4
    · intro hrp; simp [RunPast] at hrp
  | setViaErr hph =>
    rename_i r
    rw [hph] at hrun
    obtain ⟨⟨h0, p0, hsp0⟩, ⟨lp0, hpf0⟩, hmk0, hr0⟩ := hrun
    refine ⟨hnet, haddr, hpod, hns, hpanic, hgate, ?_, ?_, ?_, ?_, ?_⟩
    · show r = runResult cfg.addr env
      rw [hr0]; simp [runResult, hsp0, hpf0, hmk0]
    · refine @WatchInvAt_mono env s _ _ rfl (fun h => h) ?_ hwatch
      intro h; rw [hph] at h; simp [NotForwardingPhase] at h
    · intro hps; simp [PreSpawn] at hps
    · intro e he
      refine ⟨?_, hmk0, ⟨lp0, hpf0⟩, trivial⟩
      have : notForwardingErr = e := Option.some.inj he
      exact this.symm
    · intro _ _ _ _; rfl
  | cancelRunCtx hph =>
    rename_i r
    rw [hph] at hrun
    refine ⟨hnet, haddr, hpod, hns, hpanic, hgate, hrun, ?_, ?_, ?_, ?_⟩
    · exact @WatchInvAt_mono env s _ _ rfl (fun h => h) (fun _ => trivial) hwatch
    · intro hps; simp [PreSpawn] at hps
    · intro e he
      obtain ⟨h1, h2, h3, _⟩ := hverr e he
      exact ⟨h1, h2, h3, trivial⟩
    · intro _ a b c
      exact hvset (by rw [hph]; trivial) a b c
  | deferClose hph =>
    rename_i r
    rw [hph] at hrun
    obtain ⟨hc1, hc2, hc3, hn', ha', hp', hns', hve', hva', hctx', hrp', hwp'⟩ :=
      onceClose_fields hgate hpanic
    refine ⟨hn'.trans hnet, ha'.trans haddr, hp'.trans hpod, hns'.trans hns, hc3,
      hc1.trans hc2.symm, ⟨hrun, hc1⟩, ?_, ?_, ?_, ?_⟩
    · have hwp : ({ onceClose s with runPh := .done r } : FwdState).watchPh
          = s.watchPh := hwp'
      rw [hwp]
      exact @WatchInvAt_mono env s _ _ hva' (fun _ => hc1) (fun _ => trivial) hwatch
    · intro hps; simp [PreSpawn] at hps
    · intro e he
      rw [show ({ onceClose s with runPh := .done r } : FwdState).viaErr
          = s.viaErr from hve'] at he
      obtain ⟨h1, h2, h3, _⟩ := hverr e he
      exact ⟨h1, h2, h3, trivial⟩
    · intro _ a b c
      rw [show ({ onceClose s with runPh := .done r } : FwdState).viaErr
          = s.viaErr from hve']
      exact hvset (by rw [hph]; trivial) a b c
  | watchReady hph hready =>
    rename_i lp
    rw [hph] at hwatch
    refine ⟨hnet, haddr, hpod, hns, hpanic, hgate,
      @RunPhInvAt_mono cfg.addr env s _ _ (fun h => h) hrun,
      ⟨hwatch.1, hwatch.2.1, hready, hwatch.2.2⟩, ?_, hverr, hvset⟩
    · intro hps
      have hwn := hrw hps
      rw [hph] at hwn; simp at hwn
  | watchCancel hph hcancel =>
    rename_i lp
    rw [hph] at hwatch
    refine ⟨hnet, haddr, hpod, hns, hpanic, hgate,
      @RunPhInvAt_mono cfg.addr env s _ _ (fun h => h) hrun,
      ⟨hwatch.2.1, ⟨lp, hwatch.1⟩, hwatch.2.2⟩, ?_, hverr, hvset⟩
    · intro hps
      have hwn := hrw hps
      rw [hph] at hwn; simp at hwn
  | watchSetAddr hph =>
    rename_i lp
    rw [hph] at hwatch
    refine ⟨hnet, haddr, hpod, hns, hpanic, hgate,
      @RunPhInvAt_mono cfg.addr env s _ _ (fun h => h) hrun,
      ⟨hwatch.1, hwatch.2.1, hwatch.2.2.1, rfl⟩, ?_, hverr, hvset⟩
    · intro hps
      have hwn := hrw hps
      rw [hph] at hwn; simp at hwn
  | watchClose hph =>
    rename_i lp
    rw [hph] at hwatch
    obtain ⟨hc1, hc2, hc3, hn', ha', hp', hns', hve', hva', hctx', hrp', hwp'⟩ :=
      onceClose_fields hgate hpanic
    refine ⟨hn'.trans hnet, ha'.trans haddr, hp'.trans hpod, hns'.trans hns, hc3,
      hc1.trans hc2.symm, ?_, ⟨hwatch.1, hwatch.2.1, hwatch.2.2.1,
        hva'.trans hwatch.2.2.2, hc1⟩, ?_, ?_, ?_⟩
    · have hrp : ({ onceClose s with watchPh := .exitedReady lp } : FwdState).runPh
          = s.runPh := hrp'
      rw [hrp]
      exact @RunPhInvAt_mono cfg.addr env s _ _ (fun _ => hc1) hrun
    · intro hps
      rw [show ({ onceClose s with watchPh := .exitedReady lp } : FwdState).runPh
          = s.runPh from hrp'] at hps
      have hwn := hrw hps
      rw [hph] at hwn; simp at hwn
    · intro e he
      rw [show ({ onceClose s with watchPh := .exitedReady lp } : FwdState).viaErr
          = s.viaErr from hve'] at he
      obtain ⟨h1, h2, h3, h4⟩ := hverr e he
      refine ⟨h1, h2, h3, ?_⟩
      rw [show ({ onceClose s with watchPh := .exitedReady lp } : FwdState).runPh
          = s.runPh from hrp']
      exact h4
    · intro hrp a b c
      rw [show ({ onceClose s with watchPh := .exitedReady lp } : FwdState).viaErr
          = s.viaErr from hve']
      rw [show ({ onceClose s with watchPh := .exitedReady lp } : FwdState).runPh
          = s.runPh from hrp'] at hrp
      exact hvset hrp a b c

/-- Every reachable state satisfies the invariant. -/
theorem inv_of_reachable {cfg : FwdConfig} {env : RunEnv} {s : FwdState}
    (h : Reachable cfg env s) : Inv cfg env s := by
  induction h with
  | refl => exact inv_init cfg env
  | tail _ hstep ih => exact inv_step ih hstep

/-! ### Helper lemmas for the claim theorems -/

/-- `onceClose` never reopens the gate, and is a no-op on the gate fields
once the once-guard has fired. -/
theorem onceClose_mono (s : FwdState) :
    (s.initChanClosed = true → (onceClose s).initChanClosed = true)
    ∧ (s.onceDone = true →
        (onceClose s).onceDone = true
          ∧ (onceClose s).initChanClosed = s.initChanClosed) := by
  unfold onceClose
  cases hd : s.onceDone <;> cases hc : s.initChanClosed <;> simp [hd, hc]

/-- `onceClose` keeps the configuration fields. -/
theorem onceClose_config (s : FwdState) :
    (onceClose s).network = s.network ∧ (onceClose s).addr = s.addr
    ∧ (onceClose s).podName = s.podName
    ∧ (onceClose s).namespace' = s.namespace' := by
  unfold onceClose
  split_ifs <;> simp

/-- Along any step the gate only moves from open to closed, and once the
once-guard has fired the gate state is frozen. -/
theorem step_gate_mono {env : RunEnv} {s s' : FwdState} (hstep : Step env s s') :
    (s.initChanClosed = true → s'.initChanClosed = true)
    ∧ (s.onceDone = true →
        s'.onceDone = true ∧ s'.initChanClosed = s.initChanClosed) := by
  cases hstep
  case deferClose => exact onceClose_mono s
  case watchClose => exact onceClose_mono s
  all_goals exact ⟨fun h => h, fun h => ⟨h, rfl⟩⟩

/-- With the gate closed, a non-cancelled dial that finds no stored error
goes on to the injected dialer on `(network, viaAddr)`. -/
theorem dialContext_closed_none {s : FwdState} (hc : s.initChanClosed = true)
    (hv : s.viaErr = none) : dialContext s none = .dialed s.network s.viaAddr := by
  simp [dialContext, DialContext, hc, hv]

/-- With the gate closed, a non-cancelled dial returns the stored error. -/
theorem dialContext_closed_some {s : FwdState} {e : GoErr}
    (hc : s.initChanClosed = true) (hv : s.viaErr = some e) :
    dialContext s none = .err e := by
  simp [dialContext, DialContext, hc, hv]

/-- If the session factory failed, `viaErr` was never assigned. -/
theorem viaErr_none_of_factory_error {cfg : FwdConfig} {env : RunEnv}
    {s : FwdState} {e : GoErr} (hI : Inv cfg env s)
    (hmk : env.mkSession = .error e) : s.viaErr = none := by
  cases hv : s.viaErr with
  | none => rfl
  | some e' =>
    have h2 := (hI.via_err_inv e' hv).2.1
    rw [h2] at hmk; simp at hmk

/-- If the port finder failed, `viaErr` was never assigned. -/
theorem viaErr_none_of_port_error {cfg : FwdConfig} {env : RunEnv}
    {s : FwdState} {e : GoErr} (hI : Inv cfg env s)
    (hpf : env.portFind = .error e) : s.viaErr = none := by
  cases hv : s.viaErr with
  | none => rfl
  | some e' =>
    obtain ⟨lp, hok⟩ := (hI.via_err_inv e' hv).2.2.1
    rw [hpf] at hok; simp at hok

/-- If the session factory failed, the watch goroutine never existed and
`viaAddr` is still empty. -/
theorem viaAddr_empty_of_factory_error {cfg : FwdConfig} {env : RunEnv}
    {s : FwdState} {e : GoErr} (hI : Inv cfg env s)
    (hmk : env.mkSession = .error e) : s.viaAddr = "" := by
  have hw := hI.watch_inv
  cases hwp : s.watchPh <;> rw [hwp] at hw
  case none_ => exact hw.1
  case waiting lp => rw [hw.2.1] at hmk; simp at hmk
  case ready1 lp => rw [hw.2.1] at hmk; simp at hmk
  case ready2 lp => rw [hw.2.1] at hmk; simp at hmk
  case exitedCancel => rw [hw.1] at hmk; simp at hmk
  case exitedReady lp => rw [hw.2.1] at hmk; simp at hmk

/-- If the port finder failed, the watch goroutine never existed and
`viaAddr` is still empty. -/
theorem viaAddr_empty_of_port_error {cfg : FwdConfig} {env : RunEnv}
    {s : FwdState} {e : GoErr} (hI : Inv cfg env s)
    (hpf : env.portFind = .error e) : s.viaAddr = "" := by
  have hw := hI.watch_inv
  cases hwp : s.watchPh <;> rw [hwp] at hw
  case none_ => exact hw.1
  case waiting lp =>
    have h1 := hw.1; rw [hpf] at h1; simp at h1
  case ready1 lp =>
    have h1 := hw.1; rw [hpf] at h1; simp at h1
  case ready2 lp =>
    have h1 := hw.1; rw [hpf] at h1; simp at h1
  case exitedCancel =>
    obtain ⟨lp, hok⟩ := hw.2.1
    rw [hpf] at hok; simp at hok
  case exitedReady lp =>
    have h1 := hw.1; rw [hpf] at h1; simp at h1

/-! ### Splitting lemmas for the address parser -/

/-- `breakAt` finds nothing when the separator does not occur. -/
theorem breakAt_of_not_mem {sep : Char} {cs : List Char} (h : sep ∉ cs) :
    breakAt sep cs = none := by
  induction cs with
  | nil => rfl
  | cons c cs ih =>
    have h1 : ¬(c = sep) := fun hc => h (hc ▸ List.mem_cons_self c cs)
    have h2 : sep ∉ cs := fun hm => h (List.mem_cons_of_mem c hm)
    simp [breakAt, h1, ih h2]

/-- `breakAt` splits exactly at the first separator occurrence. -/
theorem breakAt_append {sep : Char} {l₁ rest : List Char} (h : sep ∉ l₁) :
    breakAt sep (l₁ ++ sep :: rest) = some (l₁, rest) := by
  induction l₁ with
  | nil => simp [breakAt]
  | cons c l ih =>
    have h1 : ¬(c = sep) := fun hc => h (hc ▸ List.mem_cons_self c l)
    have h2 : sep ∉ l := fun hm => h (List.mem_cons_of_mem c hm)
    simp [breakAt, h1, ih h2]

/-- Unfolding `splitNCore` at fuel 1. -/
theorem splitNCore_fuel_one (sep : Char) (cs : List Char) :
    splitNCore sep 1 cs = [cs] := rfl

/-- Unfolding `splitNCore` at fuel 2. -/
theorem splitNCore_fuel_two (sep : Char) (cs : List Char) :
    splitNCore sep 2 cs =
      match breakAt sep cs with
      | none => [cs]
      | some (pre, post) => pre :: splitNCore sep 1 post := rfl

/-- Unfolding `splitNCore` at fuel 3. -/
theorem splitNCore_fuel_three (sep : Char) (cs : List Char) :
    splitNCore sep 3 cs =
      match breakAt sep cs with
      | none => [cs]
      | some (pre, post) => pre :: splitNCore sep 2 post := rfl

/-- An address of shape `name.namespace.rest` (with dot-free first two
components) is cut by `SplitN _ "." 3` into exactly those three parts. -/
theorem splitNCore_three_components {l₁ l₂ l₃ : List Char}
    (h1 : '.' ∉ l₁) (h2 : '.' ∉ l₂) :
    splitNCore '.' 3 (l₁ ++ '.' :: (l₂ ++ '.' :: l₃)) = [l₁, l₂, l₃] := by
  simp [splitNCore_fuel_three, breakAt_append h1, splitNCore_fuel_two,
    breakAt_append h2, splitNCore_fuel_one]

/-- Go's unlimited `Split` never returns an empty list. -/
theorem splitAllCore_ne_nil (sep : Char) (cs : List Char) :
    splitAllCore sep cs ≠ [] := by
  cases cs with
  | nil => simp [splitAllCore]
  | cons c cs =>
    by_cases hc : c = sep
    · simp [splitAllCore, hc]
    · cases h : splitAllCore sep cs with
      | nil => simp [splitAllCore, hc, h]
      | cons p ps => simp [splitAllCore, hc, h]

/-- When the separator does not occur, `Split` returns the single chunk. -/
theorem splitAllCore_of_breakAt_none {sep : Char} {cs : List Char}
    (h : breakAt sep cs = none) : splitAllCore sep cs = [cs] := by
  induction cs with
  | nil => rfl
  | cons c cs ih =>
    by_cases hc : c = sep
    · simp [breakAt, hc] at h
    · simp only [breakAt, hc, if_neg, reduceIte] at h
      have hb : breakAt sep cs = none := by
        cases hb : breakAt sep cs with
        | none => rfl
        | some pq => rw [hb] at h; cases pq; simp at h
      simp [splitAllCore, hc, ih hb]

/-- `Split` peels off the first chunk found by `breakAt`. -/
theorem splitAllCore_of_breakAt_some {sep : Char} {cs pre post : List Char}
    (h : breakAt sep cs = some (pre, post)) :
    splitAllCore sep cs = pre :: splitAllCore sep post := by
  induction cs generalizing pre with
  | nil => simp [breakAt] at h
  | cons c cs ih =>
    by_cases hc : c = sep
    · simp only [breakAt, hc, reduceIte, Option.some.injEq, Prod.mk.injEq] at h
      obtain ⟨h1, h2⟩ := h
      subst h1; subst h2
      simp [splitAllCore, hc]
    · simp only [breakAt, hc, reduceIte] at h
      cases hb : breakAt sep cs with
      | none => rw [hb] at h; simp at h
      | some pq =>
        obtain ⟨pre', post'⟩ := pq
        rw [hb] at h
        simp only [Option.some.injEq, Prod.mk.injEq] at h
        obtain ⟨h1, h2⟩ := h
        subst h2
        rw [← h1]
        simp [splitAllCore, hc, ih hb]

/-- The length of `SplitN _ sep (n+1)` is the unlimited `Split` length
capped at `n+1`. -/
theorem splitNCore_length (sep : Char) (n : Nat) : ∀ cs : List Char,
    (splitNCore sep (n + 1) cs).length
      = min (splitAllCore sep cs).length (n + 1) := by
  induction n with
  | zero =>
    intro cs
    have hpos : 0 < (splitAllCore sep cs).length :=
      List.length_pos.mpr (splitAllCore_ne_nil sep cs)
    rw [splitNCore_fuel_one]
    simp
    omega
  | succ m ih =>
    intro cs
    rw [show splitNCore sep (m + 1 + 1) cs =
        (match breakAt sep cs with
          | none => [cs]
          | some (pre, post) => pre :: splitNCore sep (m + 1) post) from rfl]
    cases hb : breakAt sep cs with
    | none =>
      rw [splitAllCore_of_breakAt_none hb]
      simp
    | some pq =>
      obtain ⟨pre, post⟩ := pq
      rw [splitAllCore_of_breakAt_some hb]
      simp only [List.length_cons]
      rw [ih post]
      have hpos : 0 < (splitAllCore sep post).length :=
        List.length_pos.mpr (splitAllCore_ne_nil sep post)
      omega

/-! ### Claim theorems for the parsing and port-finding layer -/

/-- C10: for an address of shape `name.namespace.rest` (first two
components dot-free, remainder arbitrary), `parsePodAddr` returns exactly
the first component as pod name and the second as namespace; the remainder
is carried in the third chunk of the limit-3 split and never inspected. -/
theorem parsePodAddr_first_two_components (s₁ s₂ s₃ : String)
    (h1 : '.' ∉ s₁.toList) (h2 : '.' ∉ s₂.toList) :
    parsePodAddr (s₁ ++ "." ++ s₂ ++ "." ++ s₃) = .ok (s₁, s₂) := by
  have hl : (s₁ ++ "." ++ s₂ ++ "." ++ s₃).toList
      = s₁.toList ++ '.' :: (s₂.toList ++ '.' :: s₃.toList) := by
    show (s₁ ++ "." ++ s₂ ++ "." ++ s₃).data
        = s₁.data ++ '.' :: (s₂.data ++ '.' :: s₃.data)
    simp [String.data_append]
  have hcore : parsePodAddrCore (s₁.toList ++ '.' :: (s₂.toList ++ '.' :: s₃.toList))
      = .ok (s₁.toList, s₂.toList) := by
    have hsplit : splitNCore '.' 3 (s₁.toList ++ '.' :: (s₂.toList ++ '.' :: s₃.toList))
        = [s₁.toList, s₂.toList, s₃.toList] := splitNCore_three_components h1 h2
    simp only [parsePodAddrCore, hsplit]
    rw [if_neg (by simp)]
    rfl
  unfold parsePodAddr
  rw [hl, hcore]
  exact rfl

/-- C6 counterexample: the address `a.b` has exactly two delimiter-separated
components — a name and a scope — yet `NewPodForwarder` rejects it. -/
theorem newPodForwarder_two_components_rejected :
    (splitAllCore '.' ("a.b".toList)).length = 2
    ∧ NewPodForwarder "tcp" "a.b" =
        .error (.simple "unsupported pod address format: a.b") := by
  constructor <;> decide

/-- C6 (amended): construction succeeds exactly for addresses with at least
three delimiter-separated components (name, scope, and a non-split
remainder), and any address with fewer components is rejected with the
"unsupported pod address format" error, so `Run` is never reached for it. -/
theorem newPodForwarder_requires_three_components (network addr : String) :
    ((∃ cfg, NewPodForwarder network addr = .ok cfg) ↔
      3 ≤ (splitAllCore '.' addr.toList).length)
    ∧ ((splitAllCore '.' addr.toList).length < 3 →
        NewPodForwarder network addr =
          .error (.simple ("unsupported pod address format: " ++ addr))) := by
  have hlen : (splitNCore '.' 3 addr.toList).length
      = min (splitAllCore '.' addr.toList).length 3 :=
    splitNCore_length '.' 2 addr.toList
  by_cases h3 : 3 ≤ (splitAllCore '.' addr.toList).length
  · have hplen : (splitNCore '.' 3 addr.toList).length = 3 := by omega
    have hok : parsePodAddrCore addr.toList =
        .ok ((splitNCore '.' 3 addr.toList).getD 0 [],
             (splitNCore '.' 3 addr.toList).getD 1 []) := by
      simp only [parsePodAddrCore]
      rw [if_neg (by omega)]
    refine ⟨⟨fun _ => h3, fun _ => ?_⟩, fun hc => absurd h3 (by omega)⟩
    refine ⟨{ network := network, addr := addr,
              podName := ((splitNCore '.' 3 addr.toList).getD 0 []).asString,
              namespace' := ((splitNCore '.' 3 addr.toList).getD 1 []).asString }, ?_⟩
    unfold NewPodForwarder parsePodAddr
    rw [hok]
  · have hplen : (splitNCore '.' 3 addr.toList).length ≤ 2 := by omega
    have herr : NewPodForwarder network addr =
        .error (.simple ("unsupported pod address format: " ++ addr)) := by
      have hco : parsePodAddrCore addr.toList =
          .error (.simple ("unsupported pod address format: "
            ++ (addr.toList).asString)) := by
        simp only [parsePodAddrCore]
        rw [if_pos (by omega)]
      unfold NewPodForwarder parsePodAddr
      rw [hco]
      exact rfl
    refine ⟨⟨?_, fun h3' => absurd h3' h3⟩, fun _ => herr⟩
    rintro ⟨cfg, hcf⟩
    rw [herr] at hcf
    simp at hcf

/-- C8 counterexample: the probe socket of `defaultEphemeralPortFinder` is
bound to the loopback address `127.0.0.1`, not to a wildcard host. -/
theorem ephemeral_listen_loopback_not_wildcard :
    ephemeralListenAddr = "127.0.0.1:0"
    ∧ splitHostPort ephemeralListenAddr = .ok ("127.0.0.1", "0")
    ∧ wildcardHost "127.0.0.1" = false := by
  refine ⟨rfl, by decide, by decide⟩

/-- C8 (amended): `defaultEphemeralPortFinder` returns a port exactly when
listening on loopback `127.0.0.1:0` succeeded, the probe listener closed
cleanly, and the bound address split into host and port — and then it
returns only the port component; any listen, close or split failure makes
it return an error instead. -/
theorem defaultEphemeralPortFinder_spec (w : NetWorld) (p : String) :
    defaultEphemeralPortFinder w = .ok p ↔
      ∃ a h, w.listen "tcp" ephemeralListenAddr = .ok a ∧ w.close a = none
        ∧ splitHostPort a = .ok (h, p) := by
  unfold defaultEphemeralPortFinder
  cases hl : w.listen "tcp" ephemeralListenAddr with
  | error e => simp [hl]
  | ok a =>
    cases hcl : w.close a with
    | some e => simp [hl, hcl]
    | none =>
      cases hsp : splitHostPort a with
      | error e => simp [hl, hcl, hsp]
      | ok hp =>
        obtain ⟨h, q⟩ := hp
        simp [hl, hcl, hsp]

/-! ### Claim theorems for the concurrency layer -/

/-- C1 (amended): by the time `Run` returns the gate has resolved, and when
the session factory returns an error from session creation `Run` returns
that error; but no terminal error is stored, so a subsequent `DialContext`
call with a non-cancelled context does not hang and does not return a
terminal error — it proceeds to invoke the injected dial function on the
empty via-address, and its outcome is whatever that dialer returns. -/
theorem run_done_factory_error (cfg : FwdConfig) (env : RunEnv)
    (s : FwdState) (r : Option GoErr) (hr : Reachable cfg env s)
    (hdone : s.runPh = .done r) :
    s.initChanClosed = true
    ∧ (∀ e h p lp, splitHostPort cfg.addr = .ok (h, p) →
        env.portFind = .ok lp → env.mkSession = .error e →
        r = some e ∧ s.viaErr = none
          ∧ dialContext s none = .dialed s.network "") := by
  have hI := inv_of_reachable hr
  have hrun := hI.run_inv
  rw [hdone] at hrun
  obtain ⟨hres, hclosed⟩ := hrun
  refine ⟨hclosed, ?_⟩
  intro e h p lp hsp hpf hmk
  have hvn : s.viaErr = none := viaErr_none_of_factory_error hI hmk
  have hva : s.viaAddr = "" := viaAddr_empty_of_factory_error hI hmk
  refine ⟨?_, hvn, ?_⟩
  · rw [hres]; simp [runResult, hsp, hpf, hmk]
  · rw [← hva]; exact dialContext_closed_none hclosed hvn

/-- C2: the transition out of pending is applied at most once: no reachable
state has suffered a double-close panic, a step never reopens the closed
gate, and once the once-guard has fired every further close attempt is a
no-op that leaves the gate state unchanged, so all waiters observe the same
final resolved state. -/
theorem gate_resolves_at_most_once (cfg : FwdConfig) (env : RunEnv)
    (s s' : FwdState) (hr : Reachable cfg env s) (hstep : Step env s s') :
    s.panicked = false ∧ s'.panicked = false
    ∧ (s.initChanClosed = true → s'.initChanClosed = true)
    ∧ (s.onceDone = true →
        s'.onceDone = true ∧ s'.initChanClosed = s.initChanClosed) := by
  have hI := inv_of_reachable hr
  have hI' := inv_step hI hstep
  have hm := step_gate_mono hstep
  exact ⟨hI.no_panic, hI'.no_panic, hm.1, hm.2⟩

/-- C3: once `Run` has finished on the path where the session was actually
created and `ForwardPorts` returned, the terminal error is the fixed
"not currently forwarding" sentinel and every later `DialContext` call with
a non-cancelled context returns exactly that error — it neither blocks nor
reaches the dialer with a stale address. -/
theorem run_done_terminal_error (cfg : FwdConfig) (env : RunEnv)
    (s : FwdState) (r : Option GoErr) (h p lp : String)
    (hr : Reachable cfg env s) (hdone : s.runPh = .done r)
    (hsp : splitHostPort cfg.addr = .ok (h, p))
    (hpf : env.portFind = .ok lp) (hmk : env.mkSession = .ok ()) :
    s.viaErr = some notForwardingErr ∧ s.initChanClosed = true
    ∧ dialContext s none = .err notForwardingErr := by
  have hI := inv_of_reachable hr
  have hrun := hI.run_inv
  rw [hdone] at hrun
  obtain ⟨hres, hclosed⟩ := hrun
  have hve : s.viaErr = some notForwardingErr :=
    hI.via_err_set (by rw [hdone]; trivial) ⟨h, p, hsp⟩ ⟨lp, hpf⟩ hmk
  exact ⟨hve, hclosed, dialContext_closed_some hclosed hve⟩

/-- C4: `DialContext` precedence: a call whose context is already cancelled
returns the context's error without consulting the stored error; otherwise,
once the gate is resolved, a stored error is returned, and failing that the
injected dial function is invoked on the resolved local address. -/
theorem dialContext_precedence (s : FwdState) (e : GoErr) :
    dialContext s (some e) = .err e
    ∧ (s.initChanClosed = true → s.viaErr = none →
        dialContext s none = .dialed s.network s.viaAddr)
    ∧ (s.initChanClosed = true → ∀ e2, s.viaErr = some e2 →
        dialContext s none = .err e2) := by
  refine ⟨?_, ?_, ?_⟩
  · simp [dialContext, DialContext]
  · intro hc hv; exact dialContext_closed_none hc hv
  · intro hc e2 hv; exact dialContext_closed_some hc hv

/-- C5 (amended): when the ephemeral-port allocator fails, `Run` returns
the allocation error and before returning it closes the gate, releasing
all waiters — but it stores no error, so a subsequent `DialContext` call
with a non-cancelled context does not observe the failure and instead
invokes the injected dial function on the empty via-address. -/
theorem run_done_port_alloc_failure (cfg : FwdConfig) (env : RunEnv)
    (s : FwdState) (r : Option GoErr) (e : GoErr) (h p : String)
    (hr : Reachable cfg env s) (hdone : s.runPh = .done r)
    (hsp : splitHostPort cfg.addr = .ok (h, p))
    (hpf : env.portFind = .error e) :
    r = some e ∧ s.initChanClosed = true ∧ s.viaErr = none
    ∧ dialContext s none = .dialed s.network "" := by
  have hI := inv_of_reachable hr
  have hrun := hI.run_inv
  rw [hdone] at hrun
  obtain ⟨hres, hclosed⟩ := hrun
  have hvn : s.viaErr = none := viaErr_none_of_port_error hI hpf
  have hva : s.viaAddr = "" := viaAddr_empty_of_port_error hI hpf
  refine ⟨?_, hclosed, hvn, ?_⟩
  · rw [hres]; simp [runResult, hsp, hpf]
  · rw [← hva]; exact dialContext_closed_none hclosed hvn

/-- C7 (amended): when the watch goroutine has exited through its readiness
branch, the gate is resolved, the resolved address is exactly
`127.0.0.1:<localPort>` with `localPort` the port returned by the
ephemeral-port finder, and while the session is still forwarding a
non-cancelled `DialContext` call proceeds to the injected dial function
with exactly that address. -/
theorem watch_ready_resolves (cfg : FwdConfig) (env : RunEnv)
    (s : FwdState) (lp : String) (hr : Reachable cfg env s)
    (hw : s.watchPh = .exitedReady lp) :
    env.portFind = .ok lp ∧ s.viaAddr = "127.0.0.1:" ++ lp
    ∧ s.initChanClosed = true
    ∧ (∀ lp2, s.runPh = .forwarding lp2 →
        s.viaErr = none
          ∧ dialContext s none = .dialed s.network ("127.0.0.1:" ++ lp)) := by
  have hI := inv_of_reachable hr
  have hwatch := hI.watch_inv
  rw [hw] at hwatch
  obtain ⟨hpf, hmk, hready, hva, hclosed⟩ := hwatch
  refine ⟨hpf, hva, hclosed, ?_⟩
  intro lp2 hfwd
  have hvn : s.viaErr = none := by
    cases hv : s.viaErr with
    | none => rfl
    | some e' =>
      have h4 := (hI.via_err_inv e' hv).2.2.2
      rw [hfwd] at h4; simp [RunPast] at h4
  refine ⟨hvn, ?_⟩
  rw [← hva]; exact dialContext_closed_none hclosed hvn

/-- C9: `DialContext` is read-only — the state it returns is the state it
was given — and no step of the `Run`/watcher transition system modifies the
configuration fields `network`, `addr`, `podName`, `namespace'`. -/
theorem dialContext_readonly_config_immutable :
    (∀ (s : FwdState) (c : Option GoErr), (DialContext s c).1 = s)
    ∧ (∀ (env : RunEnv) (s s' : FwdState), Step env s s' →
        s'.network = s.network ∧ s'.addr = s.addr ∧ s'.podName = s.podName
          ∧ s'.namespace' = s.namespace') := by
  refine ⟨fun s c => rfl, ?_⟩
  intro env s s' hstep
  cases hstep
  case deferClose => exact onceClose_config s
  case watchClose => exact onceClose_config s
  all_goals exact ⟨rfl, rfl, rfl, rfl⟩

/-! ### Concrete executions -/

/-- The factory-failure run: `Run` splits the address, allocates the port,
fails at session creation and returns through its deferred statements. -/
theorem reach_sSessDone : Reachable cfgA envSessErr sSessDone := by
  have h1 : Step envSessErr sInit sFind := Step.splitOk rfl
    (by decide : splitHostPort sInit.addr = Except.ok ("podA.ns1.pod.cluster.local", "9200"))
  have h2 : Step envSessErr sFind sMk := Step.portOk rfl rfl
  have h3 : Step envSessErr sMk sSessExit := Step.sessionErr rfl rfl
  have h4 : Step envSessErr sSessExit sSessClose := Step.cancelRunCtx rfl
  have h5 : Step envSessErr sSessClose sSessDone := Step.deferClose rfl
  exact .tail (.tail (.tail (.tail (.tail .refl h1) h2) h3) h4) h5

/-- The port-failure run: `Run` splits the address, fails at port
allocation and returns through its deferred statements. -/
theorem reach_sPortDone : Reachable cfgA envPortErr sPortDone := by
  have h1 : Step envPortErr sInit sFind := Step.splitOk rfl
    (by decide : splitHostPort sInit.addr = Except.ok ("podA.ns1.pod.cluster.local", "9200"))
  have h2 : Step envPortErr sFind sPortExit := Step.portErr rfl rfl
  have h3 : Step envPortErr sPortExit sPortClose := Step.cancelRunCtx rfl
  have h4 : Step envPortErr sPortClose sPortDone := Step.deferClose rfl
  exact .tail (.tail (.tail (.tail .refl h1) h2) h3) h4

/-- The termination run: the session is created, `ForwardPorts` returns
an error, `viaErr` is assigned and `Run` finishes. -/
theorem reach_sTermDone : Reachable cfgA envTerm sTermDone := by
  have h1 : Step envTerm sInit sFind := Step.splitOk rfl
    (by decide : splitHostPort sInit.addr = Except.ok ("podA.ns1.pod.cluster.local", "9200"))
  have h2 : Step envTerm sFind sMk := Step.portOk rfl rfl
  have h3 : Step envTerm sMk sFwd := Step.sessionOk rfl rfl
  have h4 : Step envTerm sFwd sSetErr := Step.forwardReturn rfl
  have h5 : Step envTerm sSetErr sTermExit := Step.setViaErr rfl
  have h6 : Step envTerm sTermExit sTermClose := Step.cancelRunCtx rfl
  have h7 : Step envTerm sTermClose sTermDone := Step.deferClose rfl
  exact .tail (.tail (.tail (.tail (.tail (.tail (.tail .refl h1) h2) h3) h4) h5) h6) h7

/-- The readiness run: the session is created and signals readiness while
`Run` is still blocked in `ForwardPorts`; the watcher stores the via
address and closes the gate. -/
theorem reach_sReady : Reachable cfgA envReady sReady := by
  have h1 : Step envReady sInit sFind := Step.splitOk rfl
    (by decide : splitHostPort sInit.addr = Except.ok ("podA.ns1.pod.cluster.local", "9200"))
  have h2 : Step envReady sFind sMk := Step.portOk rfl rfl
  have h3 : Step envReady sMk sFwd := Step.sessionOk rfl rfl
  have h4 : Step envReady sFwd sReady1 := Step.watchReady rfl rfl
  have h5 : Step envReady sReady1 sReady2 := Step.watchSetAddr rfl
  have h6 : Step envReady sReady2 sReady := Step.watchClose rfl
  exact .tail (.tail (.tail (.tail (.tail (.tail .refl h1) h2) h3) h4) h5) h6

/-- The port-less-address run: `SplitHostPort` fails immediately and `Run`
returns before a session or watcher can exist. -/
theorem reach_bDone : Reachable cfgNoPort envReady bDone := by
  have h1 : Step envReady bInit bExit := Step.splitErr rfl (by decide)
  have h2 : Step envReady bExit bClose := Step.cancelRunCtx rfl
  have h3 : Step envReady bClose bDone := Step.deferClose rfl
  exact .tail (.tail (.tail .refl h1) h2) h3

/-! ### Counterexamples and witnesses -/

/-- C1 counterexample: when the session factory fails, `Run` returns the
factory error, but the gate holds no stored error, so a later
`DialContext` with a non-cancelled context does not return a terminal
error — it reaches the injected dialer with the empty via-address, and
under a dialer that accepts any address the call succeeds. -/
theorem factory_error_dial_can_succeed :
    Reachable cfgA envSessErr sSessDone
    ∧ sSessDone.runPh = .done (some errSess)
    ∧ sSessDone.viaErr = none
    ∧ dialContext sSessDone none = .dialed "tcp" ""
    ∧ runDial (fun _ _ => .ok ()) (dialContext sSessDone none)
        = some (.ok ()) :=
  ⟨reach_sSessDone, by decide, by decide, by decide, by decide⟩

/-- C1 witness: the amended theorem applied to the factory-failure run. -/
theorem run_done_factory_error_witness :
    sSessDone.initChanClosed = true ∧ sSessDone.viaErr = none
    ∧ dialContext sSessDone none = .dialed sSessDone.network "" := by
  have h := run_done_factory_error cfgA envSessErr sSessDone (some errSess)
    reach_sSessDone (by decide)
  have h2 := h.2 errSess "podA.ns1.pod.cluster.local" "9200" "9000"
    (by decide) (by decide) (by decide)
  exact ⟨h.1, h2.2.1, h2.2.2⟩

/-- C2 witness: the at-most-once theorem applied to the first step of the
factory-failure run. -/
theorem gate_resolves_at_most_once_witness :
    sInit.panicked = false ∧ sFind.panicked = false
    ∧ (sInit.initChanClosed = true → sFind.initChanClosed = true)
    ∧ (sInit.onceDone = true →
        sFind.onceDone = true ∧ sFind.initChanClosed = sInit.initChanClosed) :=
  gate_resolves_at_most_once cfgA envSessErr sInit sFind
    Relation.ReflTransGen.refl (Step.splitOk rfl
    (by decide : splitHostPort sInit.addr = Except.ok ("podA.ns1.pod.cluster.local", "9200")))

/-- C3 witness: after the termination run, the stored error is the fixed
sentinel and a non-cancelled dial returns exactly it. -/
theorem run_done_terminal_error_witness :
    sTermDone.viaErr = some notForwardingErr
    ∧ sTermDone.initChanClosed = true
    ∧ dialContext sTermDone none = .err notForwardingErr :=
  run_done_terminal_error cfgA envTerm sTermDone (some errFwd)
    "podA.ns1.pod.cluster.local" "9200" "9000" reach_sTermDone
    (by decide) (by decide) (by decide) (by decide)

/-- C4 witness: precedence at the terminated state — a cancelled context
wins over the stored error, and without cancellation the stored error is
returned. -/
theorem dialContext_precedence_witness :
    dialContext sTermDone (some (.external "context cancelled"))
        = .err (.external "context cancelled")
    ∧ dialContext sTermDone none = .err notForwardingErr := by
  have h := dialContext_precedence sTermDone (.external "context cancelled")
  exact ⟨h.1, h.2.2 (by decide) notForwardingErr (by decide)⟩

/-- C5 counterexample: after a port-allocation failure `Run` closes the
gate but stores no error, so a later non-cancelled `DialContext` does not
return the failure — it reaches the dialer with the empty via-address and
can succeed. -/
theorem port_error_gate_closed_without_error :
    Reachable cfgA envPortErr sPortDone
    ∧ sPortDone.runPh = .done (some errPort)
    ∧ sPortDone.initChanClosed = true
    ∧ sPortDone.viaErr = none
    ∧ dialContext sPortDone none = .dialed "tcp" ""
    ∧ runDial (fun _ _ => .ok ()) (dialContext sPortDone none)
        = some (.ok ()) :=
  ⟨reach_sPortDone, by decide, by decide, by decide, by decide, by decide⟩

/-- C5 witness: the amended theorem applied to the port-failure run. -/
theorem run_done_port_alloc_failure_witness :
    sPortDone.initChanClosed = true ∧ sPortDone.viaErr = none
    ∧ dialContext sPortDone none = .dialed sPortDone.network "" := by
  have h := run_done_port_alloc_failure cfgA envPortErr sPortDone
    (some errPort) errPort "podA.ns1.pod.cluster.local" "9200"
    reach_sPortDone (by decide) (by decide) (by decide)
  exact ⟨h.2.1, h.2.2.1, h.2.2.2⟩

/-- C6 witness: `a.b` (two components) is rejected with the format error,
`a.b.c` (three components) is accepted. -/
theorem newPodForwarder_requires_three_components_witness :
    (splitAllCore '.' ("a.b".toList)).length < 3
    ∧ NewPodForwarder "tcp" "a.b" =
        .error (.simple ("unsupported pod address format: " ++ "a.b"))
    ∧ 3 ≤ (splitAllCore '.' ("a.b.c".toList)).length
    ∧ (∃ cfg, NewPodForwarder "tcp" "a.b.c" = .ok cfg) := by
  have h1 := (newPodForwarder_requires_three_components "tcp" "a.b").2 (by decide)
  have h2 := (newPodForwarder_requires_three_components "tcp" "a.b.c").1.mpr
    (by decide)
  exact ⟨by decide, h1, by decide, h2⟩

/-- C7 counterexample: for a forwarder constructed for the bare address
`podA.ns1.pod.cluster.local` (no remote port), even with a factory that
would succeed and signal readiness with local port `9000`, `Run` fails at
address splitting before any session exists; the watcher never runs, the
via-address stays empty, and a post-`Run` dial hands the dialer the empty
address — never `127.0.0.1:9000`. -/
theorem bare_pod_address_never_ready :
    NewPodForwarder "tcp" "podA.ns1.pod.cluster.local" = .ok cfgNoPort
    ∧ Reachable cfgNoPort envReady bDone
    ∧ bDone.runPh = .done (some errNoPort)
    ∧ bDone.watchPh = .none_
    ∧ bDone.viaAddr = ""
    ∧ dialContext bDone none = .dialed "tcp" "" :=
  ⟨by decide, reach_bDone, by decide, by decide, by decide, by decide⟩

/-- C7 witness: in the readiness run for
`podA.ns1.pod.cluster.local:9200` with local port `9000`, the dial
function observes `127.0.0.1:9000`. -/
theorem watch_ready_resolves_witness :
    sReady.watchPh = .exitedReady "9000"
    ∧ sReady.runPh = .forwarding "9000"
    ∧ dialContext sReady none = .dialed "tcp" "127.0.0.1:9000" := by
  have h := watch_ready_resolves cfgA envReady sReady "9000" reach_sReady
    (by decide)
  have h2 := (h.2.2.2 "9000" (by decide)).2
  exact ⟨by decide, by decide, h2.trans (by decide)⟩

/-- C8 witness: the finder specification applied to a concrete socket
oracle binding `127.0.0.1:43210`. -/
theorem defaultEphemeralPortFinder_spec_witness :
    defaultEphemeralPortFinder wProbe = .ok "43210" :=
  (defaultEphemeralPortFinder_spec wProbe "43210").mpr
    ⟨"127.0.0.1:43210", "127.0.0.1", rfl, rfl, by decide⟩

/-- C9 witness: a `DialContext` call leaves a concrete state unchanged and
a concrete step keeps the configuration fields. -/
theorem dialContext_readonly_config_immutable_witness :
    (DialContext sInit none).1 = sInit
    ∧ sFind.network = sInit.network ∧ sFind.addr = sInit.addr
    ∧ sFind.podName = sInit.podName
    ∧ sFind.namespace' = sInit.namespace' := by
  have h := dialContext_readonly_config_immutable
  exact ⟨h.1 sInit none,
    h.2 envSessErr sInit sFind (Step.splitOk rfl
    (by decide : splitHostPort sInit.addr = Except.ok ("podA.ns1.pod.cluster.local", "9200")))⟩

/-- C10 witness: `a.b.c.d.e` parses to name `a` and namespace `b`. -/
theorem parsePodAddr_first_two_components_witness :
    ('.' ∉ ("a".toList)) ∧ ('.' ∉ ("b".toList))
    ∧ parsePodAddr "a.b.c.d.e" = .ok ("a", "b") := by
  have h := parsePodAddr_first_two_components "a" "b" "c.d.e"
    (by decide) (by decide)
  refine ⟨by decide, by decide, ?_⟩
  have he : ("a" ++ "." ++ "b" ++ "." ++ "c.d.e") = "a.b.c.d.e" := by decide
  rw [← he]
  exact h

end PodForward
